import Mathlib

/-
  Verification development for `translate_wg_conf.py`: a one-shot translator
  from a WireGuard INI configuration to hostname.if(5) directives.

  The script is embedded shallowly:
  * Python exceptions become an explicit error type (`PyErr`), with one
    constructor per exception class the script or its library calls can raise
    or catch (`AddressValueError` and `NetmaskValueError` are subclasses of
    `ValueError`; `binascii.Error` is a distinct `ValueError` subclass; a
    `try/except AddressValueError` catches only that constructor).
  * Library calls the script makes (`str.split`, `base64.b64decode` with
    `validate=True`, i.e. `binascii.a2b_base64` with `strict_mode=True` on
    Python 3.11+, and the `ipaddress` interface constructors) are modelled
    directly from their stdlib implementations, over `List Char`.
  * INI extraction (configparser) is the external collaborator: the program
    model takes the five extracted field strings (or an extraction error).
-/

deriving instance DecidableEq for Except

namespace WgTranslate

/-- Model of the Python exceptions relevant to the script.  `addressValueError`
and `netmaskValueError` model `ipaddress.AddressValueError` /
`ipaddress.NetmaskValueError`; `binasciiError` models `binascii.Error`;
`valueError` models a plain `ValueError`.  A handler written
`except AddressValueError` catches exactly the `addressValueError`
constructor (subclasses are distinct constructors here). -/
inductive PyErr where
  | valueError (msg : String)
  | addressValueError (msg : String)
  | netmaskValueError (msg : String)
  | binasciiError (msg : String)
deriving DecidableEq

/-- Python `str.split(sep)` for a one-character separator, over `List Char`:
splits at every occurrence of `sep`, keeping empty pieces; the result is never
empty (`''.split(sep) == ['']`). -/
def splitCharAux (sep : Char) : List Char → List (List Char)
  | [] => [[]]
  | c :: rest =>
    match splitCharAux sep rest with
    | [] => [[]]
    | h :: t => if c = sep then [] :: h :: t else (c :: h) :: t

/-- Python `s.split(sep)` for a one-character separator, on `String`s. -/
def pySplit (sep : Char) (s : String) : List String :=
  (splitCharAux sep s.data).map List.asString

theorem splitCharAux_ne_nil (sep : Char) (cs : List Char) :
    splitCharAux sep cs ≠ [] := by
  cases cs with
  | nil => simp [splitCharAux]
  | cons c rest =>
    simp only [splitCharAux]
    cases splitCharAux sep rest with
    | nil => simp
    | cons h t =>
      by_cases hc : c = sep <;> simp [hc]

theorem pySplit_ne_nil (sep : Char) (s : String) : pySplit sep s ≠ [] := by
  unfold pySplit
  simp [splitCharAux_ne_nil]

/-- Value of a character in the standard base64 alphabet (`None` for a
character outside the alphabet, including `'='`). -/
def b64val (c : Char) : Option Nat :=
  if 'A' ≤ c ∧ c ≤ 'Z' then some (c.toNat - 65)
  else if 'a' ≤ c ∧ c ≤ 'z' then some (c.toNat - 97 + 26)
  else if '0' ≤ c ∧ c ≤ '9' then some (c.toNat - 48 + 52)
  else if c = '+' then some 62
  else if c = '/' then some 63
  else none

/-- Main loop of CPython's `binascii.a2b_base64` with `strict_mode=True`
(`Modules/binascii.c`).  State: `qp` is `quad_pos` (characters consumed in the
current quad), `leftchar` the pending bits, `pads` the running pad count
(only incremented while `quad_pos >= 2`), `padStarted` the `padding_started`
flag, `acc` the bytes produced so far.  A pad character at `quad_pos < 2` is
skipped; a pad sequence completing a quad succeeds only at the very end of the
input (otherwise "Excess data after padding"); an alphabet character after any
pad is "Discontinuous padding"; a non-alphabet character is an error; leftover
`quad_pos ≠ 0` at the end of input is an error. -/
def a2bLoop : List Char → Nat → Nat → Nat → Bool → List Nat → Option (List Nat)
  | [], qp, _, _, _, acc => if qp = 0 then some acc else none
  | c :: rest, qp, leftchar, pads, padStarted, acc =>
    if c = '=' then
      if qp ≥ 2 ∧ qp + (pads + 1) ≥ 4 then
        if rest = [] then some acc else none
      else
        a2bLoop rest qp leftchar (if qp ≥ 2 then pads + 1 else pads) true acc
    else
      match b64val c with
      | none => none
      | some v =>
        if padStarted then none
        else
          match qp with
          | 0 => a2bLoop rest 1 v 0 false acc
          | 1 => a2bLoop rest 2 (v % 16) 0 false (acc ++ [leftchar * 4 + v / 16])
          | 2 => a2bLoop rest 3 (v % 4) 0 false (acc ++ [leftchar * 16 + v / 4])
          | _ => a2bLoop rest 0 0 0 false (acc ++ [leftchar * 64 + v])

/-- `base64.b64decode(key, validate=True)` on Python 3.11+: delegates to
`binascii.a2b_base64(s, strict_mode=True)`.  Strict mode rejects a leading
pad character outright. -/
def b64decode_strict (s : String) : Option (List Nat) :=
  match s.data with
  | [] => some []
  | c :: _ => if c = '=' then none else a2bLoop s.data 0 0 0 false []

/-- `WGKeyValidator.validate_key`: base64-decode the key with `validate=True`;
a decode failure surfaces as the `binascii.Error`; a decoded length other than
32 raises `ValueError(f"{key_name} didn't base64 decode to 32 bytes.")`. -/
def validate_key (key : String) (key_name : String) : Except PyErr Unit :=
  match b64decode_strict key with
  | none => .error (.binasciiError "Invalid base64-encoded string")
  | some b64decoded_key =>
    if b64decoded_key.length ≠ 32 then
      .error (.valueError (key_name ++ " didn't base64 decode to 32 bytes."))
    else
      .ok ()

/-! ## Model of the stdlib `ipaddress` parsing used by the script -/

/-- Numeric value of a list of decimal digit characters (`int(s, 10)` once the
digits are known to be valid). -/
def natOfDigits (cs : List Char) : Nat :=
  cs.foldl (fun n c => n * 10 + (c.toNat - 48)) 0

/-- `IPv4Address._parse_octet`: non-empty, ASCII decimal digits only, at most
3 characters, no leading zero (except `"0"` itself), value at most 255.  All
failures are `AddressValueError`s at the caller. -/
def parse_octet (cs : List Char) : Option Nat :=
  if cs.isEmpty then none
  else if ¬ cs.all Char.isDigit then none
  else if cs.length > 3 then none
  else if cs.length > 1 ∧ cs.head? = some '0' then none
  else if natOfDigits cs > 255 then none
  else some (natOfDigits cs)

/-- `IPv4Address._ip_int_from_string`: split on `'.'`, exactly 4 octets, each
parsed by `parse_octet`; result is the 32-bit integer value. -/
def parse_ipv4_address (cs : List Char) : Option Nat :=
  match splitCharAux '.' cs with
  | [o1, o2, o3, o4] =>
    match parse_octet o1, parse_octet o2, parse_octet o3, parse_octet o4 with
    | some a, some b, some c, some d => some (((a * 256 + b) * 256 + c) * 256 + d)
    | _, _, _, _ => none
  | _ => none

/-- `_IPAddressBase._prefix_from_prefix_string`: ASCII decimal digits only
(no sign, no whitespace; leading zeros are accepted here), value at most
`maxLen`. -/
def prefix_from_prefix_string (maxLen : Nat) (cs : List Char) : Option Nat :=
  if cs.isEmpty then none
  else if ¬ cs.all Char.isDigit then none
  else if natOfDigits cs ≤ maxLen then some (natOfDigits cs)
  else none

/-- Number of trailing zero bits of `ip`, capped at `w`
(`ipaddress._count_righthand_zero_bits`). -/
def countRightZeros : Nat → Nat → Nat
  | 0, _ => 0
  | w + 1, n => if n % 2 = 1 then 0 else countRightZeros w (n / 2) + 1

/-- `_IPAddressBase._prefix_from_ip_int`: accept `ip` iff it is of the form
`1^p 0^(maxLen-p)` in `maxLen` bits, returning `p`. -/
def prefix_from_ip_int (maxLen : Nat) (ip : Nat) : Option Nat :=
  let tz := countRightZeros maxLen ip
  let p := maxLen - tz
  if ip / 2 ^ tz = 2 ^ p - 1 then some p else none

/-- `IPv4Network._make_netmask` for a string argument: first try the prefix
form (`"24"`), then a dotted netmask (`"255.255.255.0"`) or hostmask
(`"0.0.0.255"`).  Failure is a `NetmaskValueError` at the caller. -/
def ipv4_netmask (cs : List Char) : Option Nat :=
  match prefix_from_prefix_string 32 cs with
  | some p => some p
  | none =>
    match parse_ipv4_address cs with
    | none => none
    | some ip =>
      match prefix_from_ip_int 32 ip with
      | some p => some p
      | none => prefix_from_ip_int 32 (2 ^ 32 - 1 - ip)

/-- `IPv4Interface(s)`: split on `'/'` (more than one slash is an
`AddressValueError`), parse the address part (`AddressValueError` on failure),
then the netmask (`NetmaskValueError` on failure); a missing netmask defaults
to 32. -/
def ipv4_interface (s : List Char) : Except PyErr (Nat × Nat) :=
  match splitCharAux '/' s with
  | [a] =>
    match parse_ipv4_address a with
    | some ip => .ok (ip, 32)
    | none => .error (.addressValueError (List.asString a ++ " is not a valid IPv4 address"))
  | [a, m] =>
    match parse_ipv4_address a with
    | none => .error (.addressValueError (List.asString a ++ " is not a valid IPv4 address"))
    | some ip =>
      match ipv4_netmask m with
      | some p => .ok (ip, p)
      | none => .error (.netmaskValueError (List.asString m ++ " is not a valid netmask"))
  | _ => .error (.addressValueError ("Only one slash permitted in " ++ List.asString s))

/-- ASCII hex digit test (`ipaddress._HEX_DIGITS`). -/
def isHexDigitChar (c : Char) : Bool :=
  c.isDigit ∨ ('a' ≤ c ∧ c ≤ 'f') ∨ ('A' ≤ c ∧ c ≤ 'F')

/-- Value of one hex digit character. -/
def hexVal (c : Char) : Nat :=
  if c.isDigit then c.toNat - 48
  else if 'a' ≤ c then c.toNat - 87
  else c.toNat - 55

/-- `int(s, 16)` on a list of valid hex digit characters. -/
def natOfHexDigits (cs : List Char) : Nat :=
  cs.foldl (fun n c => n * 16 + hexVal c) 0

/-- `IPv6Address._parse_hextet`: hex digits only, non-empty, at most 4
characters. -/
def parse_hextet (cs : List Char) : Option Nat :=
  if cs.isEmpty then none
  else if ¬ cs.all isHexDigitChar then none
  else if cs.length > 4 then none
  else some (natOfHexDigits cs)

/-- One hex digit character, lower case (for `'%x' % n`). -/
def hexDigitChar (n : Nat) : Char :=
  if n < 10 then Char.ofNat (48 + n) else Char.ofNat (87 + n)

/-- Helper for `toHexChars`, with fuel. -/
def toHexAux : Nat → Nat → List Char
  | 0, _ => []
  | _ + 1, 0 => []
  | f + 1, n => toHexAux f (n / 16) ++ [hexDigitChar (n % 16)]

/-- `'%x' % n`: lower-case hex rendering without leading zeros. -/
def toHexChars (n : Nat) : List Char :=
  if n = 0 then ['0'] else toHexAux n n

/-- The hextets of an IPv6 textual address after the `'::'` bookkeeping:
`his` are the parts before the `'::'`, `skipped` the number of zero hextets it
stands for, `los` the parts after it. -/
def combineV6 (his : List Nat) (skipped : Nat) (los : List Nat) : Nat :=
  let hi := his.foldl (fun a h => a * 65536 + h) 0
  los.foldl (fun a h => a * 65536 + h) (hi * 65536 ^ skipped)

/-- Core of `IPv6Address._ip_int_from_string` once the (possibly
IPv4-augmented) colon-separated parts are known. -/
def parse_v6_parts (parts : List (List Char)) : Option Nat :=
  let n := parts.length
  let interiorEmpties :=
    (((parts.drop 1).dropLast.enum.filter (fun p => p.2.isEmpty)).map (fun p => p.1 + 1))
  let headEmpty := (parts.head?.getD ['x']).isEmpty
  let lastEmpty := (parts.getLast?.getD ['x']).isEmpty
  match interiorEmpties with
  | _ :: _ :: _ => none
  | [skip] =>
    let partsHi0 := skip
    let partsLo0 := n - skip - 1
    let partsHi := if headEmpty then partsHi0 - 1 else partsHi0
    if headEmpty ∧ partsHi ≠ 0 then none
    else
      let partsLo := if lastEmpty then partsLo0 - 1 else partsLo0
      if lastEmpty ∧ partsLo ≠ 0 then none
      else if partsHi + partsLo ≥ 8 then none
      else do
        let his ← (parts.take partsHi).mapM parse_hextet
        let los ← (parts.drop (n - partsLo)).mapM parse_hextet
        some (combineV6 his (8 - (partsHi + partsLo)) los)
  | [] =>
    if n ≠ 8 then none
    else if headEmpty then none
    else if lastEmpty then none
    else do
      let hs ← parts.mapM parse_hextet
      some (combineV6 hs 0 [])

/-- `IPv6Address._ip_int_from_string`: non-empty, at least 3 colon-separated
parts; a final part containing `'.'` is parsed as an IPv4 address and replaced
by its two hextets (rendered in hex, as CPython does); at most 9 parts; then
the `'::'` handling of `parse_v6_parts`. -/
def parse_ipv6_address (cs : List Char) : Option Nat :=
  if cs.isEmpty then none
  else
    let parts0 := splitCharAux ':' cs
    if parts0.length < 3 then none
    else
      let withV4 : Option (List (List Char)) :=
        match parts0.getLast? with
        | some lastp =>
          if lastp.contains '.' then
            match parse_ipv4_address lastp with
            | some v4 =>
              some (parts0.dropLast ++ [toHexChars (v4 / 65536), toHexChars (v4 % 65536)])
            | none => none
          else some parts0
        | none => some parts0
      match withV4 with
      | none => none
      | some parts =>
        if parts.length > 9 then none
        else parse_v6_parts parts

/-- `IPv6Address._split_scope_id`: split on the first `'%'`; a separator with
an empty scope, or a scope containing another `'%'`, is an
`AddressValueError`. -/
def split_scope (cs : List Char) : Option (List Char × Option (List Char)) :=
  match splitCharAux '%' cs with
  | [a] => some (a, none)
  | [a, sc] => if sc.isEmpty then none else some (a, some sc)
  | _ => none

/-- An IPv6 address with its optional scope id. -/
def parse_ipv6_address_scoped (cs : List Char) : Option (Nat × Option (List Char)) :=
  match split_scope cs with
  | none => none
  | some (a, sc) =>
    match parse_ipv6_address a with
    | some ip => some (ip, sc)
    | none => none

/-- `IPv6Interface(s)`: split on `'/'`, parse the (scoped) address
(`AddressValueError` on failure), then the prefix, which for IPv6 admits only
the prefix-length form, at most 128 (`NetmaskValueError` on failure). -/
def ipv6_interface (s : List Char) :
    Except PyErr ((Nat × Option (List Char)) × Nat) :=
  match splitCharAux '/' s with
  | [a] =>
    match parse_ipv6_address_scoped a with
    | some ad => .ok (ad, 128)
    | none => .error (.addressValueError (List.asString a ++ " is not a valid IPv6 address"))
  | [a, m] =>
    match parse_ipv6_address_scoped a with
    | none => .error (.addressValueError (List.asString a ++ " is not a valid IPv6 address"))
    | some ad =>
      match prefix_from_prefix_string 128 m with
      | some p => .ok (ad, p)
      | none => .error (.netmaskValueError (List.asString m ++ " is not a valid netmask"))
  | _ => .error (.addressValueError ("Only one slash permitted in " ++ List.asString s))

/-- A parsed `ipaddress` interface object (`IPv4Interface` or
`IPv6Interface`).  Both are truthy Python objects. -/
inductive IpInterface where
  | v4 (ip : Nat) (prefixlen : Nat)
  | v6 (ip : Nat) (scope : Option (List Char)) (prefixlen : Nat)
deriving DecidableEq

/-- Does an `except (AddressValueError, NetmaskValueError)` handler catch this
error? -/
def catchesAddrNetmask : PyErr → Bool
  | .addressValueError _ => true
  | .netmaskValueError _ => true
  | _ => false

/-- `ipaddress.ip_interface`: try `IPv4Interface`, then `IPv6Interface`,
catching `(AddressValueError, NetmaskValueError)` from each; if both fail,
raise a plain `ValueError` (not an `AddressValueError`!). -/
def ip_interface (s : String) : Except PyErr IpInterface :=
  match ipv4_interface s.data with
  | .ok (ip, p) => .ok (.v4 ip p)
  | .error e₁ =>
    if catchesAddrNetmask e₁ then
      match ipv6_interface s.data with
      | .ok ((ip, sc), p) => .ok (.v6 ip sc p)
      | .error e₂ =>
        if catchesAddrNetmask e₂ then
          .error (.valueError
            ("'" ++ s ++ "' does not appear to be an IPv4 or IPv6 interface"))
        else .error e₂
    else .error e₁

/-! ## `IPAddressFinder` -/

/-- `IPAddressFinder._is_ip`: call `ip_interface`, returning the interface, or
`False` (here `none`) when an `AddressValueError` is raised; any other
exception propagates.  (`ip_interface` wraps its failures in a plain
`ValueError`, so the handler never fires.) -/
def is_ip (ip : String) : Except PyErr (Option IpInterface) :=
  match ip_interface ip with
  | .ok itf => .ok (some itf)
  | .error (.addressValueError _) => .ok none
  | .error e => .error e

/-- `IPAddressFinder._is_ipv4`: `IPv4Interface(ip)`, returning `False` on an
`AddressValueError`; a `NetmaskValueError` propagates. -/
def is_ipv4 (ip : String) : Except PyErr (Option (Nat × Nat)) :=
  match ipv4_interface ip.data with
  | .ok r => .ok (some r)
  | .error (.addressValueError _) => .ok none
  | .error e => .error e

/-- `IPAddressFinder._is_ipv6`: `IPv6Interface(ip)`, returning `False` on an
`AddressValueError`; a `NetmaskValueError` propagates. -/
def is_ipv6 (ip : String) : Except PyErr (Option ((Nat × Option (List Char)) × Nat)) :=
  match ipv6_interface ip.data with
  | .ok r => .ok (some r)
  | .error (.addressValueError _) => .ok none
  | .error e => .error e

/-- The three accumulator lists of an `IPAddressFinder` instance. -/
structure Classification where
  ip_addresses : List String
  ipv4_addresses : List String
  ipv6_addresses : List String
deriving DecidableEq

/-- Loop body of `IPAddressFinder.find_ip_addresses`: for each `address`, if
`_is_ip(address)` is truthy append the original string to `ip_addresses`
(the parsed interface objects are always truthy), else continue; then append
to `ipv4_addresses` if `_is_ipv4(address)` is truthy, elif `_is_ipv6(address)`
to `ipv6_addresses`.  Exceptions propagate. -/
def find_go : List String → Classification → Except PyErr Classification
  | [], acc => .ok acc
  | address :: rest, acc => do
    match ← is_ip address with
    | none => find_go rest acc
    | some _ =>
      let acc1 := { acc with ip_addresses := acc.ip_addresses ++ [address] }
      match ← is_ipv4 address with
      | some _ =>
        find_go rest { acc1 with ipv4_addresses := acc1.ipv4_addresses ++ [address] }
      | none =>
        match ← is_ipv6 address with
        | some _ =>
          find_go rest { acc1 with ipv6_addresses := acc1.ipv6_addresses ++ [address] }
        | none => find_go rest acc1

/-- `IPAddressFinder(potential_addresses).find_ip_addresses()`, starting from
the freshly-constructed (empty) accumulators and returning the instance
state. -/
def find_ip_addresses (potential_addresses : List String) :
    Except PyErr Classification :=
  find_go potential_addresses ⟨[], [], []⟩

/-! ## Module main flow -/

/-- The five field strings the script extracts from the INI file via
`WGConfAccessor` (configparser is the external collaborator; its values for a
given file are taken as inputs here). -/
structure ConfigFields where
  private_key : String
  address : String
  public_key : String
  allowed_ips : String
  endpoint : String
deriving DecidableEq

/-- `wg_endpoint_ip, wg_endpoint_port = ....get_peer_endpoint().split(":")`:
tuple unpacking raises a `ValueError` unless the split has exactly two
parts. -/
def split_endpoint (s : String) : Except PyErr (String × String) :=
  match pySplit ':' s with
  | [a, b] => .ok (a, b)
  | _ => .error (.valueError "endpoint does not unpack into exactly two values")

/-- One iteration of the `wgaip` loop: the line for `allowed_ip`, where
`lastElem` is `wg_allowed_ips[-1]`; the comparison is by string value, so any
element equal to the last one gets the backslash-free form. -/
def wgaip_line (lastElem allowed_ip : String) : String :=
  if allowed_ip = lastElem then "\twgaip " ++ allowed_ip
  else "\twgaip " ++ allowed_ip ++ " \\"

/-- The `wgaip` lines printed by the loop over `wg_allowed_ips` (an empty list
prints nothing; `[-1]` is only evaluated inside the loop body). -/
def wgaip_lines (l : List String) : List String :=
  match l.getLast? with
  | none => []
  | some lastElem => l.map (wgaip_line lastElem)

/-- The full sequence of lines printed by the script, in order. -/
def emit_lines (pk pub host port : String) (allowed v4s v6s : List String) :
    List String :=
  ["wgkey " ++ pk,
   "wgpeer " ++ pub ++ " \\",
   "\twgendpoint " ++ host ++ " " ++ port ++ " \\"]
    ++ wgaip_lines allowed
    ++ v4s.map (fun a => "inet " ++ a)
    ++ v6s.map (fun a => "inet6 " ++ a)

/-- The module-level flow of `translate_wg_conf.py`, from the extracted
configuration fields to the process outcome, mirroring statement order: both
keys are validated, the endpoint is unpacked, the allowed-IPs and address
fields are comma-split, the address list is classified — all before the first
`print`.  The result is the standard-output lines together with the
uncaught exception, if any. -/
def programRun (cfg : Except PyErr ConfigFields) : List String × Option PyErr :=
  match cfg with
  | .error e => ([], some e)
  | .ok f =>
    match validate_key f.private_key "PrivateKey" with
    | .error e => ([], some e)
    | .ok _ =>
      match validate_key f.public_key "PublicKey" with
      | .error e => ([], some e)
      | .ok _ =>
        match split_endpoint f.endpoint with
        | .error e => ([], some e)
        | .ok (host, port) =>
          match find_ip_addresses (pySplit ',' f.address) with
          | .error e => ([], some e)
          | .ok finder =>
            (emit_lines f.private_key f.public_key host port
              (pySplit ',' f.allowed_ips)
              finder.ipv4_addresses finder.ipv6_addresses, none)

/-- The configuration fields configparser extracts from the section-8
end-to-end scenario file of the specification. -/
def scenarioFields : ConfigFields :=
  { private_key := "AAAAAAAAAAAAAAAAAAAAAAAAAAAAAAAAAAAAAAAAAAA="
    address := "10.0.0.2/24, fd00::2/64"
    public_key := "BBBBBBBBBBBBBBBBBBBBBBBBBBBBBBBBBBBBBBBBBBA="
    allowed_ips := "0.0.0.0/0, ::/0"
    endpoint := "203.0.113.5:51820" }

/-! ## Structural lemmas -/

theorem ipv4_interface_error_catches (s : List Char) (e : PyErr)
    (h : ipv4_interface s = .error e) : catchesAddrNetmask e = true := by
  unfold ipv4_interface at h
  split at h <;> (try split at h) <;> (try split at h) <;>
    first
      | (injection h with h; subst h; rfl)
      | injection h

theorem ipv6_interface_error_catches (s : List Char) (e : PyErr)
    (h : ipv6_interface s = .error e) : catchesAddrNetmask e = true := by
  unfold ipv6_interface at h
  split at h <;> (try split at h) <;> (try split at h) <;>
    first
      | (injection h with h; subst h; rfl)
      | injection h

/-- Whatever `ip_interface` raises is a plain `ValueError` (its internal
`AddressValueError`/`NetmaskValueError` failures are caught and replaced). -/
theorem ip_interface_error_valueError (s : String) (e : PyErr)
    (h : ip_interface s = .error e) : ∃ m, e = PyErr.valueError m := by
  unfold ip_interface at h
  split at h
  · simp at h
  next e₁ heq =>
    split at h
    · split at h
      · simp at h
      next e₂ heq₂ =>
        split at h
        · exact ⟨_, (by simpa using h.symm)⟩
        next hn =>
          exact absurd (ipv6_interface_error_catches _ _ heq₂) (by simpa using hn)
    next hn =>
      exact absurd (ipv4_interface_error_catches _ _ heq) (by simpa using hn)

/-- `_is_ip` never returns `False`: its `except AddressValueError` can never
fire, because `ip_interface` wraps all parse failures in a plain
`ValueError`. -/
theorem is_ip_ne_ok_none (a : String) : is_ip a ≠ .ok none := by
  unfold is_ip
  split
  · simp
  next m heq =>
    rcases ip_interface_error_valueError _ _ heq with ⟨m', hm⟩
    simp at hm
  · simp

theorem is_ip_ok_some_inv (a : String) (itf : IpInterface)
    (h : is_ip a = .ok (some itf)) : ip_interface a = .ok itf := by
  unfold is_ip at h
  split at h <;> simp_all

theorem splitCharAux_cons (sep c : Char) (rest h : List Char)
    (t : List (List Char)) (hs : splitCharAux sep rest = h :: t) :
    splitCharAux sep (c :: rest) =
      if c = sep then [] :: h :: t else (c :: h) :: t := by
  simp only [splitCharAux, hs]

theorem splitCharAux_of_not_mem (sep : Char) (cs : List Char) (h : sep ∉ cs) :
    splitCharAux sep cs = [cs] := by
  induction cs with
  | nil => rfl
  | cons c rest ih =>
    simp only [List.mem_cons, not_or] at h
    have h1 : ¬ c = sep := fun hh => h.1 hh.symm
    rw [splitCharAux_cons sep c rest rest [] (ih h.2), if_neg h1]

theorem splitCharAux_char_cases (sep : Char) (cs : List Char) :
    ∀ c ∈ cs, c = sep ∨ ∃ p ∈ splitCharAux sep cs, c ∈ p := by
  induction cs with
  | nil => simp
  | cons c₀ rest ih =>
    intro c hc
    cases hs : splitCharAux sep rest with
    | nil => exact absurd hs (splitCharAux_ne_nil sep rest)
    | cons h t =>
      rw [splitCharAux_cons sep c₀ rest h t hs]
      rcases List.mem_cons.mp hc with rfl | hmem
      · by_cases h0 : c = sep
        · exact Or.inl h0
        · right
          rw [if_neg h0]
          exact ⟨c :: h, List.mem_cons_self _ _, List.mem_cons_self _ _⟩
      · rcases ih c hmem with hcsep | ⟨p, hp, hcp⟩
        · exact Or.inl hcsep
        · right
          rw [hs] at hp
          by_cases h0 : c₀ = sep
          · rw [if_pos h0]
            exact ⟨p, List.mem_cons_of_mem _ hp, hcp⟩
          · rw [if_neg h0]
            rcases List.mem_cons.mp hp with rfl | hpt
            · exact ⟨c₀ :: p, List.mem_cons_self _ _, List.mem_cons_of_mem _ hcp⟩
            · exact ⟨p, List.mem_cons_of_mem _ hpt, hcp⟩

theorem parse_octet_digits (cs : List Char) (n : Nat)
    (h : parse_octet cs = some n) : ∀ c ∈ cs, c.isDigit := by
  unfold parse_octet at h
  repeat split at h
  all_goals simp_all [List.all_eq_true]

theorem parse_ipv4_chars (cs : List Char) (ip : Nat)
    (h : parse_ipv4_address cs = some ip) : ∀ c ∈ cs, c = '.' ∨ c.isDigit := by
  unfold parse_ipv4_address at h
  split at h
  next o1 o2 o3 o4 hs =>
    split at h
    next a b c' d h1 h2 h3 h4 =>
      intro c hc
      rcases splitCharAux_char_cases '.' cs c hc with hdot | ⟨p, hp, hcp⟩
      · exact Or.inl hdot
      · right
        rw [hs] at hp
        simp only [List.mem_cons, List.mem_singleton, List.not_mem_nil] at hp
        rcases hp with rfl | rfl | rfl | rfl | hfalse
        · exact parse_octet_digits _ _ h1 c hcp
        · exact parse_octet_digits _ _ h2 c hcp
        · exact parse_octet_digits _ _ h3 c hcp
        · exact parse_octet_digits _ _ h4 c hcp
        · exact absurd hfalse (by simp)
    · simp at h
  · simp at h

theorem parse_ipv4_no_colon (cs : List Char) (ip : Nat)
    (h : parse_ipv4_address cs = some ip) : ':' ∉ cs := by
  intro hmem
  rcases parse_ipv4_chars cs ip h _ hmem with h' | h' <;> exact absurd h' (by decide)

theorem parse_ipv4_no_percent (cs : List Char) (ip : Nat)
    (h : parse_ipv4_address cs = some ip) : '%' ∉ cs := by
  intro hmem
  rcases parse_ipv4_chars cs ip h _ hmem with h' | h' <;> exact absurd h' (by decide)

/-- A string parsing as an IPv4 address (digits and dots only, hence no
colons) can never parse as an IPv6 address. -/
theorem parse_ipv6_of_ipv4 (cs : List Char) (ip : Nat)
    (h : parse_ipv4_address cs = some ip) : parse_ipv6_address cs = none := by
  unfold parse_ipv6_address
  rw [splitCharAux_of_not_mem ':' cs (parse_ipv4_no_colon cs ip h)]
  by_cases he : cs.isEmpty <;> simp [he]

theorem scoped_none_of_ipv4 (cs : List Char) (ip : Nat)
    (h : parse_ipv4_address cs = some ip) :
    parse_ipv6_address_scoped cs = none := by
  unfold parse_ipv6_address_scoped split_scope
  rw [splitCharAux_of_not_mem '%' cs (parse_ipv4_no_percent cs ip h)]
  simp [parse_ipv6_of_ipv4 cs ip h]

/-- If `IPv4Interface` fails with a `NetmaskValueError` (valid IPv4 address,
bad mask), `IPv6Interface` fails with an `AddressValueError`. -/
theorem ipv6_err_of_v4_netmask_err (s : List Char) (m : String)
    (h : ipv4_interface s = .error (.netmaskValueError m)) :
    ∃ m', ipv6_interface s = .error (.addressValueError m') := by
  unfold ipv4_interface at h
  split at h
  · split at h <;> simp_all
  next a mm hs =>
    split at h
    · simp_all
    next ip hip =>
      split at h
      · simp_all
      next hmm =>
        have hv6 : ipv6_interface s =
            .error (.addressValueError (a.asString ++ " is not a valid IPv6 address")) := by
          unfold ipv6_interface
          rw [hs]
          simp [scoped_none_of_ipv4 a ip hip]
        exact ⟨_, hv6⟩
  · simp_all

/-- Whenever `ip_interface` succeeds, the `_is_ipv4` / `_is_ipv6` pair sends
the string to exactly one bucket: either `_is_ipv4` is truthy, or it returns
`False` and `_is_ipv6` is truthy. -/
theorem classify_cases (a : String) (itf : IpInterface)
    (h : ip_interface a = .ok itf) :
    (∃ r, is_ipv4 a = .ok (some r)) ∨
    (is_ipv4 a = .ok none ∧ ∃ r, is_ipv6 a = .ok (some r)) := by
  cases h4 : ipv4_interface a.data with
  | ok r => exact Or.inl ⟨r, by unfold is_ipv4; rw [h4]⟩
  | error e₁ =>
    have hcat := ipv4_interface_error_catches _ _ h4
    unfold ip_interface at h
    rw [h4] at h
    cases e₁ with
    | addressValueError m =>
      cases h6 : ipv6_interface a.data with
      | ok r2 =>
        right
        refine ⟨by unfold is_ipv4; rw [h4], ⟨r2, ?_⟩⟩
        unfold is_ipv6
        rw [h6]
      | error e₂ =>
        rw [h6] at h
        simp only [catchesAddrNetmask, if_true] at h
        split at h <;> simp at h
    | netmaskValueError m =>
      rcases ipv6_err_of_v4_netmask_err _ _ h4 with ⟨m', h6⟩
      rw [h6] at h
      simp [catchesAddrNetmask] at h
    | valueError m => simp [catchesAddrNetmask] at hcat
    | binasciiError m => simp [catchesAddrNetmask] at hcat

/-- Bucket test actually used by the loop: is `_is_ipv4(a)` truthy? -/
def in_v4_bucket (a : String) : Bool :=
  match is_ipv4 a with
  | .ok (some _) => true
  | _ => false

/-- Complete characterization of a successful classification run: every input
literal is appended verbatim to `ip_addresses` (any unparsable literal would
instead have raised), and the two version buckets are the corresponding
filters. -/
theorem find_go_ok (l : List String) :
    ∀ acc c : Classification, find_go l acc = .ok c →
    c = ⟨acc.ip_addresses ++ l,
         acc.ipv4_addresses ++ l.filter in_v4_bucket,
         acc.ipv6_addresses ++ l.filter (fun a => ! in_v4_bucket a)⟩ := by
  induction l with
  | nil =>
    intro acc c h
    simp only [find_go] at h
    cases acc
    simpa using h.symm
  | cons a rest ih =>
    intro acc c h
    unfold find_go at h
    cases hip : is_ip a with
    | error e => rw [hip] at h; simp [Bind.bind, Except.bind] at h
    | ok r =>
      rw [hip] at h
      simp only [Bind.bind, Except.bind] at h
      cases r with
      | none => exact absurd hip (is_ip_ne_ok_none a)
      | some itf =>
        have hitf := is_ip_ok_some_inv a itf hip
        rcases classify_cases a itf hitf with ⟨r4, h4⟩ | ⟨h4, r6, h6⟩
        · rw [h4] at h
          simp only [Bind.bind, Except.bind] at h
          have hp : in_v4_bucket a = true := by unfold in_v4_bucket; rw [h4]
          rw [ih _ _ h]
          simp [List.filter_cons, hp, List.append_assoc]
        · rw [h4] at h
          simp only [Bind.bind, Except.bind] at h
          rw [h6] at h
          simp only [Bind.bind, Except.bind] at h
          have hp : in_v4_bucket a = false := by unfold in_v4_bucket; rw [h4]
          rw [ih _ _ h]
          simp [List.filter_cons, hp, List.append_assoc]

/-! ## Claim theorems -/

/-- C5: for every string key, `validate_key` succeeds iff the key is valid
base64 under strict decoding with decoded length exactly 32; a wrong decoded
length gives the `ValueError` length-mismatch message, a decode failure gives
the `binascii.Error`, and the two error kinds are distinct. -/
theorem validate_key_strict_iff_32 (key key_name : String) :
    (validate_key key key_name = .ok () ↔
      ∃ bs, b64decode_strict key = some bs ∧ bs.length = 32)
    ∧ (∀ bs, b64decode_strict key = some bs → bs.length ≠ 32 →
        validate_key key key_name =
          .error (.valueError (key_name ++ " didn't base64 decode to 32 bytes.")))
    ∧ (b64decode_strict key = none →
        validate_key key key_name =
          .error (.binasciiError "Invalid base64-encoded string"))
    ∧ ∀ m m', PyErr.valueError m ≠ PyErr.binasciiError m' := by
  refine ⟨?_, ?_, ?_, ?_⟩
  · unfold validate_key
    cases hb : b64decode_strict key with
    | none => simp
    | some bs => by_cases hl : bs.length = 32 <;> simp [hl]
  · intro bs hb hl
    unfold validate_key
    rw [hb]
    simp [hl]
  · intro hb
    unfold validate_key
    rw [hb]
  · intro m m'
    simp

/-- C5 witness: the 32-byte all-zero key in its canonical 44-character base64
form validates. -/
theorem validate_key_strict_iff_32_witness :
    validate_key "AAAAAAAAAAAAAAAAAAAAAAAAAAAAAAAAAAAAAAAAAAA=" "PrivateKey" = .ok () :=
  (validate_key_strict_iff_32 "AAAAAAAAAAAAAAAAAAAAAAAAAAAAAAAAAAAAAAAAAAA="
      "PrivateKey").1.mpr
    ⟨List.replicate 32 0, by decide, by decide⟩

/-- C10: whether `validate_key` succeeds depends only on the key, not on the
`key_name` label; on a decode failure even the raised error is identical. -/
theorem validate_key_ignores_key_name (key n1 n2 : String) :
    (validate_key key n1 = .ok () ↔ validate_key key n2 = .ok ())
    ∧ (b64decode_strict key = none →
        validate_key key n1 = validate_key key n2) := by
  unfold validate_key
  cases hb : b64decode_strict key with
  | none => simp
  | some bs => by_cases hl : bs.length = 32 <;> simp [hl]

/-- C10 witness: the outcome for a concrete key is the same under the
`PrivateKey` and `PublicKey` labels. -/
theorem validate_key_ignores_key_name_witness :
    validate_key "AAAAAAAAAAAAAAAAAAAAAAAAAAAAAAAAAAAAAAAAAAA=" "PrivateKey" = .ok () ↔
    validate_key "AAAAAAAAAAAAAAAAAAAAAAAAAAAAAAAAAAAAAAAAAAA=" "PublicKey" = .ok () :=
  (validate_key_ignores_key_name "AAAAAAAAAAAAAAAAAAAAAAAAAAAAAAAAAAAAAAAAAAA="
    "PrivateKey" "PublicKey").1

/-- Every run either finishes with no error or has printed nothing: all
fallible steps of the script precede the first `print`. -/
theorem programRun_cases (cfg : Except PyErr ConfigFields) :
    (programRun cfg).2 = none ∨ (programRun cfg).1 = [] := by
  cases cfg with
  | error e => exact Or.inr rfl
  | ok f =>
    simp only [programRun]
    cases h1 : validate_key f.private_key "PrivateKey" with
    | error e => exact Or.inr rfl
    | ok u =>
      cases u
      cases h2 : validate_key f.public_key "PublicKey" with
      | error e => exact Or.inr rfl
      | ok u2 =>
        cases u2
        cases h3 : split_endpoint f.endpoint with
        | error e => exact Or.inr rfl
        | ok hp =>
          obtain ⟨host, port⟩ := hp
          cases h4 : find_ip_addresses (pySplit ',' f.address) with
          | error e => exact Or.inr rfl
          | ok c => exact Or.inl rfl

/-- C9: whenever the run aborts with an uncaught error, nothing has been
written to standard output. -/
theorem programRun_abort_no_output (cfg : Except PyErr ConfigFields)
    (h : (programRun cfg).2.isSome = true) : (programRun cfg).1 = [] := by
  rcases programRun_cases cfg with h2 | h2
  · rw [h2] at h
    simp at h
  · exact h2

/-- C9 witness: a run with an invalid private key aborts with empty standard
output. -/
theorem programRun_abort_no_output_witness :
    (programRun (.ok ⟨"x", "10.0.0.2/24", "y", "0.0.0.0/0", "1.2.3.4:51820"⟩)).1
      = [] :=
  programRun_abort_no_output
    (.ok ⟨"x", "10.0.0.2/24", "y", "0.0.0.0/0", "1.2.3.4:51820"⟩) (by decide)

/-- C8: after a completed classification, `ipv4_addresses` and
`ipv6_addresses` are the complementary order-preserving filters of
`ip_addresses`, so every element of `ip_addresses` lies in exactly one of the
two version buckets and neither bucket contains anything else. -/
theorem find_ip_addresses_partition (l : List String) (c : Classification)
    (h : find_ip_addresses l = .ok c) :
    c.ipv4_addresses = c.ip_addresses.filter in_v4_bucket
    ∧ c.ipv6_addresses = c.ip_addresses.filter (fun a => ! in_v4_bucket a)
    ∧ ∀ a ∈ c.ip_addresses,
        (a ∈ c.ipv4_addresses ∧ a ∉ c.ipv6_addresses)
        ∨ (a ∈ c.ipv6_addresses ∧ a ∉ c.ipv4_addresses) := by
  have hc := find_go_ok l ⟨[], [], []⟩ c h
  subst hc
  refine ⟨by simp, by simp, ?_⟩
  intro a ha
  simp only [List.nil_append] at ha ⊢
  by_cases hp : in_v4_bucket a
  · left
    refine ⟨List.mem_filter.mpr ⟨ha, hp⟩, fun hmem => ?_⟩
    have := (List.mem_filter.mp hmem).2
    simp [hp] at this
  · right
    refine ⟨List.mem_filter.mpr ⟨ha, by simp [hp]⟩, fun hmem => ?_⟩
    exact hp (List.mem_filter.mp hmem).2

/-- C8 witness: the partition equations hold for the classification of a
concrete mixed list. -/
theorem find_ip_addresses_partition_witness :
    (Classification.mk ["10.0.0.2/24", "fd00::2/64"] ["10.0.0.2/24"]
        ["fd00::2/64"]).ipv4_addresses
      = (Classification.mk ["10.0.0.2/24", "fd00::2/64"] ["10.0.0.2/24"]
          ["fd00::2/64"]).ip_addresses.filter in_v4_bucket :=
  (find_ip_addresses_partition ["10.0.0.2/24", "fd00::2/64"]
    (Classification.mk ["10.0.0.2/24", "fd00::2/64"] ["10.0.0.2/24"]
      ["fd00::2/64"])
    (by decide)).1

/-- C3 counterexample: classifying the bare address `"10.0.0.1"` appends the
literal itself, not the canonical `"10.0.0.1/32"` the claim requires. -/
theorem find_ip_addresses_bare_address_not_canonicalized :
    find_ip_addresses ["10.0.0.1"]
      = .ok (Classification.mk ["10.0.0.1"] ["10.0.0.1"] [])
    ∧ ("10.0.0.1" : String) ≠ "10.0.0.1/32" :=
  ⟨by decide, by decide⟩

/-- C3 amended: the string appended to the buckets is the input literal
verbatim — in fact a completed run appends every input literal unchanged and
in order (`find_ip_addresses` never canonicalizes, and it raises instead of
skipping on any unparsable literal). -/
theorem find_ip_addresses_appends_verbatim (l : List String)
    (c : Classification) (h : find_ip_addresses l = .ok c) :
    c.ip_addresses = l := by
  rw [find_go_ok l ⟨[], [], []⟩ c h]
  simp

/-- C3 witness: a concrete IPv6 literal with prefix is returned verbatim. -/
theorem find_ip_addresses_appends_verbatim_witness :
    (Classification.mk ["fd00::2/64"] [] ["fd00::2/64"]).ip_addresses
      = ["fd00::2/64"] :=
  find_ip_addresses_appends_verbatim ["fd00::2/64"]
    (Classification.mk ["fd00::2/64"] [] ["fd00::2/64"]) (by decide)

/-- C2: the script's own docstring promises `_is_ip` returns `False` for an
invalid literal, but `ip_interface` raises a plain `ValueError`, which the
`except AddressValueError` handler does not catch — so classifying an invalid
literal aborts the run instead of silently dropping it. -/
theorem find_ip_addresses_invalid_literal_raises :
    find_ip_addresses ["garbage"]
      = .error (.valueError
          "'garbage' does not appear to be an IPv4 or IPv6 interface") := by
  decide

/-- C1 counterexample: on the section-8 scenario fields the program's outcome
is not the claimed successful run with the section-8 lines. -/
theorem scenario_not_section8_output :
    programRun (.ok scenarioFields) ≠
      (["wgkey AAAAAAAAAAAAAAAAAAAAAAAAAAAAAAAAAAAAAAAAAAA=",
        "wgpeer BBBBBBBBBBBBBBBBBBBBBBBBBBBBBBBBBBBBBBBBBBA= \\",
        "\twgendpoint 203.0.113.5 51820 \\",
        "\twgaip 0.0.0.0/0 \\",
        "\twgaip ::/0",
        "inet 10.0.0.2/24",
        "inet6 fd00::2/64"], none) := by
  decide

/-- C1 amended: on the section-8 scenario the run aborts with the uncaught
`ValueError` raised while classifying the literal `' fd00::2/64'` (the
comma-split does not strip the space after the comma, and only
`AddressValueError` is caught), and nothing is written to standard output. -/
theorem scenario_aborts_without_output :
    programRun (.ok scenarioFields) =
      ([], some (.valueError
        "' fd00::2/64' does not appear to be an IPv4 or IPv6 interface")) := by
  decide

/-- C4 counterexample: a completed run whose `AllowedIPs` value is the
unrecognizable literal `garbage` still emits a `wgaip garbage` line — the
allowed-IPs list is printed raw, never classified. -/
theorem programRun_emits_wgaip_for_unrecognized :
    programRun (.ok ⟨"AAAAAAAAAAAAAAAAAAAAAAAAAAAAAAAAAAAAAAAAAAA=", "10.0.0.2/24",
        "BBBBBBBBBBBBBBBBBBBBBBBBBBBBBBBBBBBBBBBBBBA=", "garbage",
        "203.0.113.5:51820"⟩)
      = (["wgkey AAAAAAAAAAAAAAAAAAAAAAAAAAAAAAAAAAAAAAAAAAA=",
          "wgpeer BBBBBBBBBBBBBBBBBBBBBBBBBBBBBBBBBBBBBBBBBBA= \\",
          "\twgendpoint 203.0.113.5 51820 \\",
          "\twgaip garbage",
          "inet 10.0.0.2/24"], none)
    ∧ ip_interface "garbage"
        = .error (.valueError
            "'garbage' does not appear to be an IPv4 or IPv6 interface") :=
  ⟨by decide, by decide⟩

/-- The loop prints one `wgaip` line per list element. -/
theorem wgaip_lines_length (l : List String) :
    (wgaip_lines l).length = l.length := by
  unfold wgaip_lines
  cases hl : l.getLast? with
  | none => simp [List.getLast?_eq_none_iff.mp hl]
  | some x => simp

/-- C4 amended: in every completed run the `wgaip` block of the output is
exactly one line per element of the raw comma-split of the `AllowedIPs` field,
in input order and without any classification of the elements. -/
theorem wgaip_lines_from_raw_split (f : ConfigFields) (out : List String)
    (h : programRun (.ok f) = (out, none)) :
    (out.drop 3).take (pySplit ',' f.allowed_ips).length
        = wgaip_lines (pySplit ',' f.allowed_ips)
    ∧ (wgaip_lines (pySplit ',' f.allowed_ips)).length
        = (pySplit ',' f.allowed_ips).length := by
  refine ⟨?_, wgaip_lines_length _⟩
  simp only [programRun] at h
  cases h1 : validate_key f.private_key "PrivateKey" with
  | error e => rw [h1] at h; simp at h
  | ok u =>
    cases u
    rw [h1] at h
    cases h2 : validate_key f.public_key "PublicKey" with
    | error e => rw [h2] at h; simp at h
    | ok u2 =>
      cases u2
      rw [h2] at h
      cases h3 : split_endpoint f.endpoint with
      | error e => rw [h3] at h; simp at h
      | ok hp =>
        obtain ⟨host, port⟩ := hp
        rw [h3] at h
        cases h4 : find_ip_addresses (pySplit ',' f.address) with
        | error e => rw [h4] at h; simp at h
        | ok finder =>
          rw [h4] at h
          have hout : out = emit_lines f.private_key f.public_key host port
              (pySplit ',' f.allowed_ips)
              finder.ipv4_addresses finder.ipv6_addresses := by
            have := congrArg Prod.fst h
            simpa using this.symm
          rw [hout]
          unfold emit_lines
          rw [← wgaip_lines_length (pySplit ',' f.allowed_ips)]
          simp only [List.cons_append, List.nil_append, List.drop_succ_cons,
            List.drop_zero]
          rw [List.append_assoc]
          exact List.take_left _ _

/-- C4 witness: the `wgaip` block of a concrete completed run is the raw
split of its `AllowedIPs` field (note the preserved leading space in
`' ::/0'`). -/
theorem wgaip_lines_from_raw_split_witness :
    (((["wgkey AAAAAAAAAAAAAAAAAAAAAAAAAAAAAAAAAAAAAAAAAAA=",
        "wgpeer BBBBBBBBBBBBBBBBBBBBBBBBBBBBBBBBBBBBBBBBBBA= \\",
        "\twgendpoint 203.0.113.5 51820 \\",
        "\twgaip 0.0.0.0/0 \\",
        "\twgaip  ::/0",
        "inet 10.0.0.2/24"] : List String).drop 3).take
          (pySplit ',' "0.0.0.0/0, ::/0").length
        = wgaip_lines (pySplit ',' "0.0.0.0/0, ::/0"))
    ∧ (wgaip_lines (pySplit ',' "0.0.0.0/0, ::/0")).length
        = (pySplit ',' "0.0.0.0/0, ::/0").length :=
  wgaip_lines_from_raw_split
    ⟨"AAAAAAAAAAAAAAAAAAAAAAAAAAAAAAAAAAAAAAAAAAA=", "10.0.0.2/24",
      "BBBBBBBBBBBBBBBBBBBBBBBBBBBBBBBBBBBBBBBBBBA=", "0.0.0.0/0, ::/0",
      "203.0.113.5:51820"⟩
    ["wgkey AAAAAAAAAAAAAAAAAAAAAAAAAAAAAAAAAAAAAAAAAAA=",
     "wgpeer BBBBBBBBBBBBBBBBBBBBBBBBBBBBBBBBBBBBBBBBBBA= \\",
     "\twgendpoint 203.0.113.5 51820 \\",
     "\twgaip 0.0.0.0/0 \\",
     "\twgaip  ::/0",
     "inet 10.0.0.2/24"]
    (by decide)

/-- C6 counterexample: with the duplicate list `["a", "b", "a"]` the first
emitted `wgaip` line already lacks the trailing backslash (it equals the last
element by value), refuting "exactly the last line has no backslash". -/
theorem wgaip_duplicate_last_backslash_missing :
    wgaip_lines ["a", "b", "a"] = ["\twgaip a", "\twgaip b \\", "\twgaip a"]
    ∧ ("\twgaip a" : String) ≠ "\twgaip a \\" :=
  ⟨by decide, by decide⟩

/-- C6 amended: a `wgaip` line is emitted without the trailing backslash iff
its literal equals the last list element; in particular, when the final
element does not occur earlier in the list, exactly the last line lacks the
backslash and every preceding line ends with ` \`. -/
theorem wgaip_lines_unique_last (l : List String) (lastE : String)
    (h1 : l.getLast? = some lastE) (h2 : lastE ∉ l.dropLast) :
    wgaip_lines l =
      l.dropLast.map (fun a => "\twgaip " ++ a ++ " \\")
        ++ ["\twgaip " ++ lastE] := by
  simp only [wgaip_lines, h1]
  have hds : l.dropLast ++ [lastE] = l :=
    List.dropLast_append_getLast? lastE (by simp [h1])
  conv_lhs => rw [← hds]
  rw [List.map_append]
  congr 1
  · refine List.map_congr_left fun a ha => ?_
    unfold wgaip_line
    rw [if_neg]
    intro he
    exact h2 (he ▸ ha)
  · simp [wgaip_line]

/-- C6 witness: a two-element list with distinct elements gets the backslash
on the first line only. -/
theorem wgaip_lines_unique_last_witness :
    wgaip_lines ["10.0.0.0/8", "::/0"]
      = ["\twgaip 10.0.0.0/8 \\", "\twgaip ::/0"] := by
  rw [wgaip_lines_unique_last ["10.0.0.0/8", "::/0"] "::/0" (by decide)
    (by decide)]
  decide

/-- C7 counterexample: an empty `AllowedIPs` value does not yield zero `wgaip`
lines — `''.split(',') == ['']`, so one `wgaip` line with an empty literal is
emitted. -/
theorem programRun_empty_allowed_ips_emits_line :
    programRun (.ok ⟨"AAAAAAAAAAAAAAAAAAAAAAAAAAAAAAAAAAAAAAAAAAA=", "10.0.0.2/24",
        "BBBBBBBBBBBBBBBBBBBBBBBBBBBBBBBBBBBBBBBBBBA=", "",
        "203.0.113.5:51820"⟩)
      = (["wgkey AAAAAAAAAAAAAAAAAAAAAAAAAAAAAAAAAAAAAAAAAAA=",
          "wgpeer BBBBBBBBBBBBBBBBBBBBBBBBBBBBBBBBBBBBBBBBBBA= \\",
          "\twgendpoint 203.0.113.5 51820 \\",
          "\twgaip ",
          "inet 10.0.0.2/24"], none)
    ∧ ("\twgaip " : String) ∈
        ["wgkey AAAAAAAAAAAAAAAAAAAAAAAAAAAAAAAAAAAAAAAAAAA=",
         "wgpeer BBBBBBBBBBBBBBBBBBBBBBBBBBBBBBBBBBBBBBBBBBA= \\",
         "\twgendpoint 203.0.113.5 51820 \\",
         "\twgaip ",
         "inet 10.0.0.2/24"] :=
  ⟨by decide, by decide⟩

/-- C7 amended: the comma-split of the `AllowedIPs` field is never empty, so
an empty value emits exactly one `wgaip` line carrying the empty literal,
while the `wgendpoint` line (the third output line) always ends with its
trailing backslash. -/
theorem empty_allowed_ips_single_wgaip_line (pk pub host port : String)
    (v4s v6s : List String) :
    wgaip_lines (pySplit ',' "") = ["\twgaip "]
    ∧ (emit_lines pk pub host port (pySplit ',' "") v4s v6s).get? 2
        = some ("\twgendpoint " ++ host ++ " " ++ port ++ " \\") := by
  exact ⟨by decide, rfl⟩

/-- C7 witness: the single empty `wgaip` line and the endpoint backslash at
concrete emission inputs. -/
theorem empty_allowed_ips_single_wgaip_line_witness :
    wgaip_lines (pySplit ',' "") = ["\twgaip "]
    ∧ (emit_lines "pk" "pub" "203.0.113.5" "51820" (pySplit ',' "")
        ["10.0.0.2/24"] []).get? 2
        = some ("\twgendpoint " ++ "203.0.113.5" ++ " " ++ "51820" ++ " \\") :=
  empty_allowed_ips_single_wgaip_line "pk" "pub" "203.0.113.5" "51820"
    ["10.0.0.2/24"] []

end WgTranslate
